import Mathlib

/-!
Verification of the `structsync` definition-synchronization pipeline
(`src/structsync/{parser,transform,diff,writer,main}.go`) against its
natural-language specification.

The Go code is shallowly embedded: Go strings are Lean `String`s (operated on
through their underlying `List Char`), Go slices are Lean lists, Go maps are
association lists with last-write-wins lookup (`goLookup`), and the `dst`
syntax-tree type expressions are the inductive `TypeExpr`.  Each Lean
definition mirrors one Go function and keeps its name wherever Lean allows.
-/

namespace Structsync

/-! ### Go string primitives

Helpers mirroring the semantics of the Go standard library string functions
used by the tool.  They work on `List Char`; `String` values are unpacked via
`String.data` and repacked with the anonymous constructor.  Go operates on
UTF-8 bytes while we operate on characters; the tag strings and comments the
tool manipulates are ASCII, where the two views agree.
-/

/-- The backquote character. -/
def bqChar : Char := Char.ofNat 96

/-- The backquote as a one-character string. -/
def bqStr : String := ⟨[bqChar]⟩

/-- Go space characters recognized by `strings.TrimSpace` (we cover the ASCII
ones that can occur in comments and tags). -/
def isGoSpace (c : Char) : Bool :=
  c == ' ' || c == '\t' || c == '\n' || c == '\r'

/-- Model of `strings.TrimSpace` on char lists: drop spaces from both ends. -/
def trimSpaceL (l : List Char) : List Char :=
  ((l.dropWhile isGoSpace).reverse.dropWhile isGoSpace).reverse

/-- Model of `strings.TrimSpace`. -/
def goTrimSpace (s : String) : String := ⟨trimSpaceL s.data⟩

/-- Model of `strings.Trim` with a backquote cutset: drop backquotes from both ends. -/
def trimBackticksL (l : List Char) : List Char :=
  ((l.dropWhile (· == bqChar)).reverse.dropWhile (· == bqChar)).reverse

/-- Model of the backquote `strings.Trim` on strings. -/
def trimBackticks (s : String) : String := ⟨trimBackticksL s.data⟩

/-- Does `pat` occur at the head of `l`?  (`strings.HasPrefix pat`-test.) -/
def listStarts : List Char → List Char → Bool
  | [], _ => true
  | _ :: _, [] => false
  | p :: ps, c :: cs => p == c && listStarts ps cs

/-- Model of the Go has-leading-pattern test on strings. -/
def strStarts (s pat : String) : Bool := listStarts pat.data s.data

/-- Model of the Go trim-leading-pattern function: drop `pat` from the head when present. -/
def strDropPre (s pat : String) : String :=
  if listStarts pat.data s.data then ⟨s.data.drop pat.data.length⟩ else s

/-- Index of the first occurrence of `pat` in the list (`strings.Index`). -/
def indexOfSub (pat : List Char) : List Char → Option Nat
  | [] => if pat = [] then some 0 else none
  | c :: rest =>
    if listStarts pat (c :: rest) then some 0
    else (indexOfSub pat rest).map (· + 1)

/-- Model of `strings.Contains`. -/
def goContains (s sub : String) : Bool := (indexOfSub sub.data s.data).isSome

/-- Model of `strings.TrimRight` with a space cutset, on char lists. -/
def trimRightSpacesL (l : List Char) : List Char :=
  (l.reverse.dropWhile (· == ' ')).reverse

/-- Model of `strings.TrimLeft` with a space cutset, on char lists. -/
def trimLeftSpacesL (l : List Char) : List Char :=
  l.dropWhile (· == ' ')

/-- Model of `strings.Split` at commas, on char lists. -/
def splitOnComma : List Char → List (List Char)
  | [] => [[]]
  | ',' :: rest => [] :: splitOnComma rest
  | c :: rest =>
    match splitOnComma rest with
    | [] => [[c]]
    | p :: ps => (c :: p) :: ps

/-! ### The `structtag` library model

The transformer parses annotation strings with `github.com/fatih/structtag`,
whose `Parse` is the scanner from the Go `reflect` package.  `Tag`, `parseTags`
(= `structtag.Parse`), `tagsGet` (= `Tags.Get`), `setTag` (= `Tags.Set`) and
`tagsString` (= `Tags.String`) model it.  Escape sequences other than the ones
that can round-trip through our simple quoter are modelled as parse failures.
-/

structure Tag where
  key : String
  name : String
  options : List String
  deriving DecidableEq, Repr

/-- A character that may appear in a tag key (Go: byte `> ' '`, not `:`, `"`,
or `0x7f`). -/
def keyChar (c : Char) : Bool :=
  c.val > 32 && c != ':' && c != '"' && c.val != 127

/-- Scan the quoted tag value: consume up to (and including) the first
unescaped `"` and return the inner characters and the remainder.  `none` when
the closing quote is missing. -/
def scanQuoted : List Char → Option (List Char × List Char)
  | [] => none
  | '"' :: rest => some ([], rest)
  | '\\' :: c :: rest =>
    (scanQuoted rest).map (fun p => ('\\' :: c :: p.1, p.2))
  | '\\' :: [] => none
  | c :: rest => (scanQuoted rest).map (fun p => (c :: p.1, p.2))

/-- The escape sequences our `strconv.Unquote` model accepts. -/
def escChar : Char → Option Char
  | '\\' => some '\\'
  | '"' => some '"'
  | 'n' => some '\n'
  | 't' => some '\t'
  | 'r' => some '\r'
  | _ => none

/-- Model of `strconv.Unquote` on the characters between the two quotes. -/
def unquoteInner : List Char → Option (List Char)
  | [] => some []
  | '\\' :: c :: rest =>
    match escChar c with
    | some ec => (unquoteInner rest).map (ec :: ·)
    | none => none
  | '\\' :: [] => none
  | '"' :: _ => none
  | c :: rest => (unquoteInner rest).map (c :: ·)

/-- One pass of the `structtag.Parse` scanning loop, with fuel (each iteration
consumes at least one character, so `length + 1` fuel always suffices). -/
def parseTagsAux : Nat → List Char → List Tag → Option (List Tag)
  | 0, _, _ => none
  | fuel + 1, cs, acc =>
    let cs := cs.dropWhile (· == ' ')
    match cs with
    | [] => some acc
    | _ =>
      let key := cs.takeWhile keyChar
      let rest := cs.dropWhile keyChar
      if key = [] then none
      else
        match rest with
        | ':' :: '"' :: valRest =>
          match scanQuoted valRest with
          | none => none
          | some (inner, after) =>
            match unquoteInner inner with
            | none => none
            | some value =>
              let parts := splitOnComma value
              let name : List Char := parts.headD []
              let options := parts.tail
              parseTagsAux fuel after
                (acc ++ [⟨⟨key⟩, ⟨name⟩, options.map (fun o => ⟨o⟩)⟩])
        | _ => none

/-- Model of `structtag.Parse`.  The Go source returns a nil `*Tags` with a nil error
when the input is non-empty but yields zero tags (all spaces); every caller
then immediately dereferences that nil pointer, so we model the case as a
parse failure. -/
def parseTags (s : String) : Option (List Tag) :=
  match parseTagsAux (s.data.length + 1) s.data [] with
  | none => none
  | some tags => if s ≠ "" ∧ tags = [] then none else some tags

/-- Model of `Tags.Get`: the first tag with the given key. -/
def tagsGet (tags : List Tag) (key : String) : Option Tag :=
  tags.find? (fun t => t.key == key)

/-- Go `%q` quoting of a tag value (enough for values produced by our
unquoter). -/
def goQuoteInner : List Char → List Char
  | [] => []
  | '\\' :: rest => '\\' :: '\\' :: goQuoteInner rest
  | '"' :: rest => '\\' :: '"' :: goQuoteInner rest
  | '\n' :: rest => '\\' :: 'n' :: goQuoteInner rest
  | '\t' :: rest => '\\' :: 't' :: goQuoteInner rest
  | '\r' :: rest => '\\' :: 'r' :: goQuoteInner rest
  | c :: rest => c :: goQuoteInner rest

/-- Go `%q`. -/
def goQuote (s : String) : String := ⟨'"' :: goQuoteInner s.data ++ ['"']⟩

/-- Model of the tag value accessor: name and options joined by commas. -/
def tagValue (t : Tag) : String :=
  String.intercalate "," (t.name :: t.options)

/-- Rendering of one tag as `key` colon quoted-value. -/
def tagToString (t : Tag) : String := t.key ++ ":" ++ goQuote (tagValue t)

/-- Rendering of a tag list: tags joined by single spaces. -/
def tagsString (tags : List Tag) : String :=
  String.intercalate " " (tags.map tagToString)

/-- Model of `Tags.Set`: replace the first tag with the same key, else append. -/
def setTag : List Tag → Tag → List Tag
  | [], t => [t]
  | t2 :: rest, t => if t2.key == t.key then t :: rest else t2 :: setTag rest t

/-! ### Type expressions (`dst.Expr` subset, `parser.go` / `config.go`)

The inductive covers exactly the node shapes `exprToString` and `cloneExpr`
treat specially; `other` stands for every other `dst.Expr` implementation,
carrying the Go dynamic type name (what `%T` prints) and an opaque payload
standing for the node's contents.
-/

inductive TypeExpr where
  | ident (name : String)
  | star (x : TypeExpr)
  | selector (x : TypeExpr) (sel : String)
  | array (len : Option String) (elt : TypeExpr)
  | mapT (key value : TypeExpr)
  | interfaceT (methods : List String)
  | structT (fieldsRepr : List String)
  | other (goType : String) (payload : String)
  deriving DecidableEq, Repr

/-- Model of `exprToString` (`parser.go`): textual projection of a type
expression.  A fixed-length array renders with Go ellipsis brackets, inline
interface and struct types render as their empty-body short form, and every
other node renders as its Go dynamic type name (Go `%T`).  A nil expression
is handled by `exprToStringO` below. -/
def exprToString : TypeExpr → String
  | .ident n => n
  | .star x => "*" ++ exprToString x
  | .selector x sel => exprToString x ++ "." ++ sel
  | .array none elt => "[]" ++ exprToString elt
  | .array (some _) elt => "[...]" ++ exprToString elt
  | .mapT k v => "map[" ++ exprToString k ++ "]" ++ exprToString v
  | .interfaceT _ => "interface\x7b\x7d"
  | .structT _ => "struct\x7b\x7d"
  | .other goType _ => goType

/-- Rendering of a possibly-nil expression: Go `%T` prints a nil interface as
the angle-bracketed nil marker. -/
def exprToStringO : Option TypeExpr → String
  | none => "<nil>"
  | some e => exprToString e

/-- Model of `cloneExpr` (`config.go`): deep clone by case analysis.  The
array length expression is carried over as-is (the Go code copies the
reference), inline interface/struct bodies are replaced by empty ones, and
unrecognized nodes are returned as-is. -/
def cloneExpr : TypeExpr → TypeExpr
  | .ident n => .ident n
  | .star x => .star (cloneExpr x)
  | .selector x sel => .selector (cloneExpr x) sel
  | .array len elt => .array len (cloneExpr elt)
  | .mapT k v => .mapT (cloneExpr k) (cloneExpr v)
  | .interfaceT _ => .interfaceT []
  | .structT _ => .structT []
  | .other goType payload => .other goType payload

/-- Model of the nil check at the top of `cloneExpr`. -/
def cloneExprO : Option TypeExpr → Option TypeExpr
  | none => none
  | some e => some (cloneExpr e)

/-! ### Data model (`parser.go`, `transform.go`, `diff.go`, `writer.go`) -/

/-- Model of `ParsedField` (`parser.go`).  The `Node` back-pointer into the
tree is omitted; `typeExpr` is `none` exactly when the Go field's `TypeExpr`
is nil. -/
structure ParsedField where
  name : String
  type : String
  typeExpr : Option TypeExpr
  tags : String
  comments : List String
  isEmbedded : Bool
  deriving DecidableEq, Repr

/-- Model of `ParsedStruct` (`parser.go`); the `Node`/`GenDecl` tree pointers
are omitted. -/
structure ParsedStruct where
  name : String
  fields : List ParsedField
  comments : List String
  deriving DecidableEq, Repr

/-- Model of `TransformOpts` (`config.go`).  The YAML `type_mappings` map has
unique keys, so an association list with first-match lookup models it. -/
structure TransformOpts where
  removeTags : List String
  excludeEmbedded : List String
  typeMappings : List (String × String)
  deriving DecidableEq, Repr

/-- Model of `TransformedField` (`transform.go`). -/
structure TransformedField extends ParsedField where
  newTags : String
  newType : String
  shouldExclude : Bool
  deriving DecidableEq, Repr

/-- Model of `TransformResult` (`transform.go`). -/
structure TransformResult where
  fields : List TransformedField
  excludedFields : List String
  modifiedTags : Nat
  deriving DecidableEq, Repr

/-- Lookup in a Go map modelled as an association list: the last write wins. -/
def goLookup {α : Type} : List (String × α) → String → Option α
  | [], _ => none
  | p :: rest, k =>
    match goLookup rest k with
    | some v => some v
    | none => if p.1 == k then some p.2 else none

/-! ### Field transformer (`transform.go`) -/

/-- Model of `shouldExcludeField`: the field is excluded when both the `xorm`
and the `json` tag name are the skip marker. -/
def shouldExcludeField (tagStr : String) : Bool :=
  if tagStr = "" then false
  else
    let t := trimBackticks tagStr
    if t = "" then false
    else
      match parseTags t with
      | none => false
      | some tags =>
        let xormDash := match tagsGet tags "xorm" with
          | some tg => tg.name == "-"
          | none => false
        let jsonDash := match tagsGet tags "json" with
          | some tg => tg.name == "-"
          | none => false
        xormDash && jsonDash

/-- Model of `transformTags`: remove every tag whose key is in `removeSet`;
report whether anything was removed.  Unparseable tag strings are returned
re-backquoted with the `modified` flag false (the caller then keeps the
original). -/
def transformTags (tagStr : String) (removeSet : List String) : String × Bool :=
  if tagStr = "" then ("", false)
  else
    let t := trimBackticks tagStr
    if t = "" then ("", false)
    else
      match parseTags t with
      | none => (bqStr ++ t ++ bqStr, false)
      | some tags =>
        let modified := tags.any (fun tg => removeSet.contains tg.key)
        let remaining := tags.filter (fun tg => !removeSet.contains tg.key)
        if !modified then (bqStr ++ t ++ bqStr, false)
        else if remaining = [] then ("", true)
        else (bqStr ++ tagsString (remaining.foldl setTag []) ++ bqStr, true)

/-- The transformed field the loop body of `TransformStruct` appends for a
non-excluded field.  The Go code initializes `NewTags`/`NewType` to the
originals and overwrites them when a rule fires; we compute the final values
directly. -/
def mkTransformed (opts : TransformOpts) (field : ParsedField) : TransformedField :=
  { toParsedField := field
    newTags :=
      if (transformTags field.tags opts.removeTags).2 then
        (transformTags field.tags opts.removeTags).1
      else field.tags
    newType :=
      match goLookup opts.typeMappings field.type with
      | some m => m
      | none => field.type
    shouldExclude := false }

/-- The combined exclusion condition of the two `continue` branches of the
`TransformStruct` loop. -/
def exPred (opts : TransformOpts) (field : ParsedField) : Bool :=
  (field.isEmbedded && opts.excludeEmbedded.contains field.type) ||
    shouldExcludeField field.tags

/-- The loop body of `TransformStruct`: one field is either recorded as
excluded (embedded-type exclusion first, dual skip directive second) or
appended to the output with its remapped type and transformed tags. -/
def transformStep (opts : TransformOpts) (acc : TransformResult)
    (field : ParsedField) : TransformResult :=
  if field.isEmbedded && opts.excludeEmbedded.contains field.type then
    { acc with excludedFields := acc.excludedFields ++ [field.type] }
  else if shouldExcludeField field.tags then
    { acc with excludedFields := acc.excludedFields ++ [field.name] }
  else
    { acc with
      fields := acc.fields ++ [mkTransformed opts field]
      modifiedTags :=
        if (transformTags field.tags opts.removeTags).2 then
          acc.modifiedTags + 1
        else acc.modifiedTags }

/-- Model of `TransformStruct` (`transform.go`). -/
def TransformStruct (ps : ParsedStruct) (opts : TransformOpts) : TransformResult :=
  ps.fields.foldl (transformStep opts) ⟨[], [], 0⟩

/-! ### Diff engine (`diff.go`) -/

inductive DiffType where
  | unchanged
  | added
  | removed
  | modified
  deriving DecidableEq, Repr

structure DiffLine where
  type : DiffType
  content : String
  deriving DecidableEq, Repr

structure DiffResult where
  structName : String
  hasChanges : Bool
  lines : List DiffLine
  deriving DecidableEq, Repr

/-- Model of `fieldKey`: identity key of a parsed field. -/
def fieldKey (f : ParsedField) : String :=
  if f.isEmbedded then "embedded:" ++ f.type else "field:" ++ f.name

/-- Model of `tfieldKey`: identity key of a transformed field (computed from
the original type, not the remapped one). -/
def tfieldKey (f : TransformedField) : String :=
  if f.isEmbedded then "embedded:" ++ f.type else "field:" ++ f.name

/-- Model of `formatField`: render a parsed field as one struct-body line. -/
def formatField (f : ParsedField) : String :=
  "\t" ++ (if f.isEmbedded then f.type else f.name ++ " " ++ f.type)
      ++ (if f.tags ≠ "" then " " ++ f.tags else "")

/-- Model of `formatTransformedField`: like `formatField` but the remapped
type takes priority when non-empty, and the transformed tags are used. -/
def formatTransformedField (f : TransformedField) : String :=
  let fieldType := if f.newType ≠ "" then f.newType else f.type
  "\t" ++ (if f.isEmbedded then fieldType else f.name ++ " " ++ fieldType)
      ++ (if f.newTags ≠ "" then " " ++ f.newTags else "")

/-- Model of `isFieldCommented`: a leading line-comment whose content starts
with an indirection marker or contains a qualifier dot marks the field as
already neutralized. -/
def isFieldCommented (f : ParsedField) : Bool :=
  f.comments.any (fun c =>
    let c := goTrimSpace c
    if strStarts c "//" then
      let content := goTrimSpace (strDropPre c "//")
      strStarts content "*" || goContains content "."
    else false)

/-- The target-field lookup map `ComputeDiff` builds (`targetFields`). -/
def targetMapOf (ts : ParsedStruct) : List (String × ParsedField) :=
  ts.fields.map (fun f => (fieldKey f, f))

/-- The source-field lookup map `ComputeDiff` builds (`sourceFields`). -/
def sourceMapOf (tr : TransformResult) : List (String × TransformedField) :=
  tr.fields.map (fun f => (tfieldKey f, f))

/-- The body of the first `ComputeDiff` loop: one transformed upstream field
produces an unchanged line, a removed/added pair, or a single added line. -/
def diffSourceStep (targetMap : List (String × ParsedField)) (acc : DiffResult)
    (sf : TransformedField) : DiffResult :=
  if sf.shouldExclude then acc
  else
    match goLookup targetMap (tfieldKey sf) with
    | some tf =>
      let oldLine := formatField tf
      let newLine := formatTransformedField sf
      if oldLine ≠ newLine then
        { acc with
          hasChanges := true
          lines := acc.lines ++ [⟨.removed, oldLine⟩, ⟨.added, newLine⟩] }
      else
        { acc with lines := acc.lines ++ [⟨.unchanged, newLine⟩] }
    | none =>
      { acc with
        hasChanges := true
        lines := acc.lines ++ [⟨.added, formatTransformedField sf⟩] }

/-- The body of the second `ComputeDiff` loop: a target field absent from the
transformed set is skipped when already neutralized, else reported removed. -/
def diffRemovedStep (sourceMap : List (String × TransformedField))
    (acc : DiffResult) (tf : ParsedField) : DiffResult :=
  match goLookup sourceMap (fieldKey tf) with
  | some _ => acc
  | none =>
    if isFieldCommented tf then acc
    else
      { acc with
        hasChanges := true
        lines := acc.lines ++ [⟨.removed, formatField tf⟩] }

/-- The initial diff accumulator: no changes yet, header line only. -/
def diffInit (name : String) : DiffResult :=
  { structName := name
    hasChanges := false
    lines := [⟨.unchanged, "type " ++ name ++ " struct \x7b"⟩] }

/-- Model of `ComputeDiff` (`diff.go`). -/
def ComputeDiff (targetStruct : ParsedStruct) (transformed : TransformResult) :
    DiffResult :=
  let targetMap := targetMapOf targetStruct
  let sourceMap := sourceMapOf transformed
  let r1 := transformed.fields.foldl (diffSourceStep targetMap)
    (diffInit targetStruct.name)
  let r2 := targetStruct.fields.foldl (diffRemovedStep sourceMap) r1
  { r2 with lines := r2.lines ++ [⟨.unchanged, "\x7d"⟩] }

/-! ### Merge / builder and writer helpers (`writer.go`) -/

/-- Model of a built `dst.Field` node: the parts of the node the pipeline
sets.  `beforeNewLine` models `Decs.Before = dst.NewLine`. -/
structure DstField where
  names : List String
  type : Option TypeExpr
  tag : Option String
  comments : List String
  beforeNewLine : Bool
  deriving DecidableEq, Repr

/-- Model of `MergeOptions` (`config.go`). -/
structure MergeOptions where
  markDeprecated : Bool
  deprecationMessage : String
  pruneDeprecated : Bool
  removeTags : List String
  deriving DecidableEq, Repr

structure BuildResult where
  fields : List DstField
  deriving DecidableEq, Repr

/-- Model of `buildField` (`writer.go`): a field node for one retained
transformed field.  A remapped type becomes a fresh identifier, otherwise the
original type expression is deep-cloned. -/
def buildField (tf : TransformedField) : DstField :=
  { names := if tf.isEmbedded then [] else [tf.name]
    type :=
      if tf.newType ≠ "" ∧ tf.newType ≠ tf.type then some (.ident tf.newType)
      else cloneExprO tf.typeExpr
    tag := if tf.newTags ≠ "" then some tf.newTags else none
    comments := tf.comments
    beforeNewLine := false }

/-- Scan for the end of a removed tag segment in `transformTagsHelper`: walk
from index `i` (with `prev` the character before it) to just past the first
quote not preceded by a backslash. -/
def quoteEnd : List Char → Option Char → Nat → Nat
  | [], _, i => i
  | c :: rest, prev, i =>
    if c == '"' && (match prev with | none => true | some p => p != '\\') then
      i + 1
    else quoteEnd rest (some c) (i + 1)

/-- The inner removal loop of `transformTagsHelper` for one key, with fuel
(every iteration removes at least the key, colon and quotes and adds at most
one space, so the string strictly shrinks and `length + 1` fuel suffices). -/
def stripKeyLoop : Nat → List Char → List Char → List Char
  | 0, _, result => result
  | fuel + 1, key, result =>
    match indexOfSub (key ++ [':', '"']) result with
    | none => result
    | some start =>
      let st := start + key.length + 2
      let endIdx := quoteEnd (result.drop st) ((result.take st).getLast?) st
      let pre := trimRightSpacesL (result.take start)
      let suf := trimLeftSpacesL (result.drop endIdx)
      stripKeyLoop fuel key
        (pre ++ (if pre ≠ [] ∧ suf ≠ [] then [' '] else []) ++ suf)

/-- Model of `transformTagsHelper` (`writer.go`): manual removal of
`key:"..."` segments without the structtag parser.  The Go code iterates the
remove-set in (nondeterministic) map order; we iterate in the configured list
order, which is equivalent for the single-key configurations the tool
documents. -/
def transformTagsHelper (tagStr : String) (removeSet : List String) :
    String × Bool :=
  if tagStr = "" then ("", false)
  else
    let t := trimBackticksL tagStr.data
    if t = [] then ("", false)
    else
      let result := removeSet.foldl
        (fun res key => stripKeyLoop (res.length + 1) key.data res) t
      let result := trimSpaceL result
      if result = [] then ("", true)
      else (bqStr ++ (⟨result⟩ : String) ++ bqStr, true)

/-- Model of `buildDeprecatedField` (`writer.go`): the stub keeps the target
field's name and type, strips the configured tag keys, and carries exactly
the synthesized deprecation comment on its own line (the Go code assigns
`Decs.Start`, replacing any prior comments). -/
def buildDeprecatedField (pf : ParsedField) (message : String)
    (removeTagKeys : List String) : DstField :=
  { names := if pf.isEmbedded then [] else [pf.name]
    type :=
      match pf.typeExpr with
      | some e => some (cloneExpr e)
      | none => some (.ident pf.type)
    tag :=
      if pf.tags ≠ "" then
        let newTags := (transformTagsHelper pf.tags removeTagKeys).1
        if newTags ≠ "" then some newTags else none
      else none
    comments :=
      ["// Deprecated: " ++
        (if message = "" then "removed from server" else message)]
    beforeNewLine := true }

/-- The identity key the builder (`BuildFieldsFromTransform`) computes for an
existing target field: plain name, or type for embedded fields (no
`field:`/`embedded:` marker, unlike the diff engine's keys). -/
def buildKeyPF (f : ParsedField) : String :=
  if f.isEmbedded then f.type else f.name

/-- The identity key the builder computes for a transformed field. -/
def buildKeyTF (f : TransformedField) : String :=
  if f.isEmbedded then f.type else f.name

/-- The transformed-field lookup map the builder builds (`transformedMap`);
the `existingMap` the Go code also builds is never read and is omitted. -/
def transformedMapOf (tr : TransformResult) : List (String × TransformedField) :=
  tr.fields.map (fun f => (buildKeyTF f, f))

/-- Model of `BuildFieldsFromTransform` (`writer.go`): retained transformed
fields in upstream order, followed by (when `markDeprecated`) a deprecated
stub for every existing target field whose key has no transformed match. -/
def BuildFieldsFromTransform (transformed : TransformResult)
    (existingFields : List ParsedField) (opts : MergeOptions) : BuildResult :=
  let transformedMap := transformedMapOf transformed
  let part1 :=
    (transformed.fields.filter (fun tf => !tf.shouldExclude)).map buildField
  let part2 := existingFields.filterMap (fun ef =>
    if (goLookup transformedMap (buildKeyPF ef)).isSome then none
    else if opts.markDeprecated then
      some (buildDeprecatedField ef opts.deprecationMessage opts.removeTags)
    else none)
  ⟨part1 ++ part2⟩

/-! ### Parser field extraction (`parser.go`) -/

/-- Model of `extractField`: an unnamed field node yields one embedded
`ParsedField` keyed by its rendered type; a node with names fans out into one
field per name. -/
def extractField (field : DstField) : List ParsedField :=
  let tagValue := field.tag.getD ""
  let comments := field.comments
  let typeStr := exprToStringO field.type
  if field.names = [] then
    [⟨typeStr, typeStr, field.type, tagValue, comments, true⟩]
  else
    field.names.map (fun n => ⟨n, typeStr, field.type, tagValue, comments, false⟩)

/-- The identity key of a built field node, as the next parse would compute
it: first name, or the rendered type when unnamed. -/
def dstFieldKey (b : DstField) : String :=
  match b.names with
  | [] => exprToStringO b.type
  | n :: _ => n

/-! ### Run-wide summary statistics (`diff.go`, `main.go`) -/

/-- Model of `SummaryStats` (`diff.go`). -/
structure SummaryStats where
  totalStructs : Nat
  changedStructs : Nat
  newFields : Nat
  removedFields : Nat
  modifiedTags : Nat
  excludedFields : Nat
  deriving DecidableEq, Repr

/-- The statistics updates performed for one successfully processed struct:
`Syncer.syncStruct` increments `ChangedStructs` when the diff reports changes
and adds the transformer's `ModifiedTags`; `Syncer.Run` then increments
`TotalStructs`.  No other counter is touched anywhere in `main.go`.  File
I/O, parsing and the write-back are abstracted: the pair carries the already
extracted source and target structs. -/
def syncStructStats (opts : TransformOpts) (stats : SummaryStats)
    (pair : ParsedStruct × ParsedStruct) : SummaryStats :=
  let transformed := TransformStruct pair.1 opts
  let diff := ComputeDiff pair.2 transformed
  { stats with
    changedStructs :=
      if diff.hasChanges then stats.changedStructs + 1 else stats.changedStructs
    modifiedTags := stats.modifiedTags + transformed.modifiedTags
    totalStructs := stats.totalStructs + 1 }

/-- Model of the statistics accumulation in `Syncer.Run`: process the
configured (source, target) struct pairs in order starting from the zeroed
accumulator. -/
def runStats (opts : TransformOpts)
    (pairs : List (ParsedStruct × ParsedStruct)) : SummaryStats :=
  pairs.foldl (syncStructStats opts) ⟨0, 0, 0, 0, 0, 0⟩

/-! ### Derived per-field views of the two diff loops

These are the lines one loop iteration contributes; they depend on the field
and the lookup map only, never on the accumulator, which is what makes the
diff output order a function of the ordered field lists. -/

/-- The lines the first `ComputeDiff` loop emits for one transformed field. -/
def diffEntryLines (targetMap : List (String × ParsedField))
    (sf : TransformedField) : List DiffLine :=
  if sf.shouldExclude then []
  else
    match goLookup targetMap (tfieldKey sf) with
    | some tf =>
      let oldLine := formatField tf
      let newLine := formatTransformedField sf
      if oldLine ≠ newLine then [⟨.removed, oldLine⟩, ⟨.added, newLine⟩]
      else [⟨.unchanged, newLine⟩]
    | none => [⟨.added, formatTransformedField sf⟩]

/-- The lines the second `ComputeDiff` loop emits for one target field. -/
def diffRemovedLines (sourceMap : List (String × TransformedField))
    (tf : ParsedField) : List DiffLine :=
  match goLookup sourceMap (fieldKey tf) with
  | some _ => []
  | none =>
    if isFieldCommented tf then [] else [⟨.removed, formatField tf⟩]

/-- The parsed field the next run's parser extracts from a built field node
(`extractField` returns exactly one field for every node the builder emits,
since the builder sets zero names for embedded fields and one otherwise). -/
def pbOf (tf : TransformedField) : ParsedField :=
  { name :=
      if tf.isEmbedded then exprToStringO (buildField tf).type else tf.name
    type := exprToStringO (buildField tf).type
    typeExpr := (buildField tf).type
    tags := ((buildField tf).tag).getD ""
    comments := tf.comments
    isEmbedded := tf.isEmbedded }

/-! ### Concrete inputs used by the example and counterexample theorems -/

/-- An upstream struct with three plain fields `A`, `B`, `C`. -/
def exSource : ParsedStruct :=
  ⟨"S", [⟨"A", "int", some (.ident "int"), "", [], false⟩,
         ⟨"B", "bool", some (.ident "bool"), "", [], false⟩,
         ⟨"C", "int", some (.ident "int"), "", [], false⟩], []⟩

/-- A target struct containing only `B`, with a different type. -/
def exTarget : ParsedStruct :=
  ⟨"S", [⟨"B", "string", some (.ident "string"), "", [], false⟩], []⟩

/-- An empty transformation rule set. -/
def emptyOpts : TransformOpts := ⟨[], [], []⟩

/-- Transformation rules stripping the `xorm` key, as in the shipped
configuration. -/
def xormOpts : TransformOpts := ⟨["xorm"], [], []⟩

/-- Merge options as `Syncer.syncStruct` builds them with the default
`--mark-deprecated=true` flag. -/
def defaultMergeOpts : MergeOptions :=
  ⟨true, "removed from server", false, ["xorm"]⟩

/-- An upstream struct with no fields at all. -/
def emptySource : ParsedStruct := ⟨"S", [], []⟩

/-- A target struct with the single plain field `Foo`. -/
def fooTarget : ParsedStruct :=
  ⟨"S", [⟨"Foo", "string", some (.ident "string"), "", [], false⟩], []⟩

/-- The upstream-side dual-skip annotation string (backquoted
`xorm` skip plus `json` skip). -/
def dualSkipTag : String := bqStr ++ "xorm:\"-\" json:\"-\"" ++ bqStr

/-- An upstream struct whose only field carries the dual skip directive. -/
def secretSource : ParsedStruct :=
  ⟨"S", [⟨"Secret", "string", some (.ident "string"), dualSkipTag, [], false⟩], []⟩

/-- The existing target fields for the dual-skip scenario: `Secret` is still
present downstream. -/
def secretExisting : List ParsedField :=
  [⟨"Secret", "string", some (.ident "string"), "", [], false⟩]

/-- The empty diff accumulator used by witness statements. -/
def emptyDiff : DiffResult := ⟨"S", false, []⟩

/-- A mapping table with the documented payment-state mapping plus a chained
pair, to exhibit the absence of cascading. -/
def ppOpts : TransformOpts :=
  ⟨[], [], [("pp.PaymentState", "string"), ("A", "B"), ("B", "C")]⟩

/-- An upstream struct whose field `A` is new relative to `statsTarget`. -/
def statsSource : ParsedStruct :=
  ⟨"S", [⟨"A", "int", some (.ident "int"), "", [], false⟩], []⟩

/-- A target struct with no fields. -/
def statsTarget : ParsedStruct := ⟨"S", [], []⟩

/-- Merge options with the hard-delete policy (`mark_deprecated` false). -/
def hardDeleteOpts : MergeOptions := ⟨false, "", false, []⟩

/-- A plain retained field used next to the excluded one. -/
def keepField : ParsedField := ⟨"Keep", "int", some (.ident "int"), "", [], false⟩

/-- The dual-skip field itself. -/
def secretField : ParsedField :=
  ⟨"Secret", "string", some (.ident "string"), dualSkipTag, [], false⟩

/-- An upstream struct with one retained and one dual-skip-excluded field. -/
def keepSecretSource : ParsedStruct := ⟨"S", [keepField, secretField], []⟩

/-- The second-run target struct of a full pipeline pass: whatever the
builder produced, parsed back field by field. -/
def secondRunTarget (ps ts : ParsedStruct) (opts : TransformOpts)
    (mopts : MergeOptions) : ParsedStruct :=
  ⟨ts.name,
   ((BuildFieldsFromTransform (TransformStruct ps opts) ts.fields mopts).fields).flatMap
     extractField,
   ts.comments⟩

/-! ## Lemmas -/

/-- Cloning preserves the rendered text of a type expression. -/
lemma exprToString_cloneExpr (e : TypeExpr) :
    exprToString (cloneExpr e) = exprToString e := by
  induction e with
  | ident n => rfl
  | star x ih => simp [cloneExpr, exprToString, ih]
  | selector x s ih => simp [cloneExpr, exprToString, ih]
  | array len elt ih => cases len <;> simp [cloneExpr, exprToString, ih]
  | mapT k v ihk ihv => simp [cloneExpr, exprToString, ihk, ihv]
  | interfaceT ms => rfl
  | structT fs => rfl
  | other g p => rfl

/-- Cloning preserves the rendered text, nil case included. -/
lemma exprToStringO_cloneExprO (e : Option TypeExpr) :
    exprToStringO (cloneExprO e) = exprToStringO e := by
  cases e with
  | none => rfl
  | some e => simp [cloneExprO, exprToStringO, exprToString_cloneExpr]

/-- A Go-map lookup succeeds exactly when the key was written. -/
lemma goLookup_isSome {α : Type} (m : List (String × α)) (k : String) :
    (goLookup m k).isSome = true ↔ k ∈ m.map Prod.fst := by
  induction m with
  | nil => simp [goLookup]
  | cons p rest ih =>
    simp only [goLookup, List.map_cons, List.mem_cons]
    cases h : goLookup rest k with
    | some v =>
      rw [h] at ih
      simp only [Option.isSome_some, true_iff] at ih
      simp [ih]
    | none =>
      rw [h] at ih
      simp only [Option.isSome_none, Bool.false_eq_true, false_iff] at ih
      by_cases hpk : p.1 = k
      · subst hpk
        simp
      · have hk : ¬ k = p.1 := fun he => hpk he.symm
        simp [hpk, hk, ih]

/-- A Go-map lookup fails exactly when the key was never written. -/
lemma goLookup_eq_none {α : Type} (m : List (String × α)) (k : String) :
    goLookup m k = none ↔ k ∉ m.map Prod.fst := by
  rw [← goLookup_isSome]
  cases goLookup m k <;> simp

/-- On a map built from a list with pairwise-distinct keys, looking up an
element's key returns that element's value. -/
lemma goLookup_map_self {α β : Type} (kf : α → String) (gf : α → β) :
    ∀ (l : List α) (a : α), a ∈ l → (l.map kf).Nodup →
      goLookup (l.map fun x => (kf x, gf x)) (kf a) = some (gf a) := by
  intro l
  induction l with
  | nil => simp
  | cons x rest ih =>
    intro a ha hnd
    simp only [List.map_cons, List.nodup_cons] at hnd
    simp only [List.map_cons, goLookup]
    rcases List.mem_cons.mp ha with rfl | hmem
    · have hnone : goLookup (rest.map fun y => (kf y, gf y)) (kf a) = none := by
        rw [goLookup_eq_none]
        intro hk
        simp only [List.map_map] at hk
        have : kf a ∈ rest.map kf := by
          simpa [Function.comp] using hk
        exact hnd.1 this
      rw [hnone]
      simp
    · rw [ih a hmem hnd.2]

/-- The `TransformStruct` loop body, expressed through the combined exclusion
condition. -/
lemma transformStep_fields (opts : TransformOpts) (acc : TransformResult)
    (f : ParsedField) :
    (transformStep opts acc f).fields =
      if exPred opts f then acc.fields else acc.fields ++ [mkTransformed opts f] := by
  unfold transformStep exPred
  cases h1 : f.isEmbedded && opts.excludeEmbedded.contains f.type <;>
    cases h2 : shouldExcludeField f.tags <;> simp [h1, h2]

/-- Folding the transformer over a field list appends exactly the transformed
versions of the non-excluded fields, in order. -/
lemma foldl_transform_fields (opts : TransformOpts) (L : List ParsedField)
    (acc : TransformResult) :
    (L.foldl (transformStep opts) acc).fields =
      acc.fields ++ (L.filter (fun f => !exPred opts f)).map (mkTransformed opts) := by
  induction L generalizing acc with
  | nil => simp
  | cons f t ih =>
    rw [List.foldl_cons, ih]
    cases h : exPred opts f
    · have hfe := transformStep_fields opts acc f
      rw [h] at hfe
      simp only [if_false, Bool.false_eq_true] at hfe
      simp [List.filter_cons, h, hfe]
    · have hfe := transformStep_fields opts acc f
      rw [h] at hfe
      simp only [if_true] at hfe
      simp [List.filter_cons, h, hfe]

/-- The transformed field list of `TransformStruct`, characterized by the
ordered input field list. -/
lemma TransformStruct_fields (ps : ParsedStruct) (opts : TransformOpts) :
    (TransformStruct ps opts).fields =
      (ps.fields.filter (fun f => !exPred opts f)).map (mkTransformed opts) := by
  unfold TransformStruct
  rw [foldl_transform_fields]
  rfl

/-- Every field in the transformer output comes from a non-excluded input
field. -/
lemma mem_transform_fields {ps : ParsedStruct} {opts : TransformOpts}
    {tf : TransformedField} (h : tf ∈ (TransformStruct ps opts).fields) :
    ∃ f ∈ ps.fields, exPred opts f = false ∧ tf = mkTransformed opts f := by
  rw [TransformStruct_fields] at h
  obtain ⟨f, hf, rfl⟩ := List.mem_map.mp h
  rw [List.mem_filter] at hf
  exact ⟨f, hf.1, by simpa using hf.2, rfl⟩

/-- The transformer never emits a field marked excluded. -/
lemma shouldExclude_of_mem_transform {ps : ParsedStruct} {opts : TransformOpts}
    {tf : TransformedField} (h : tf ∈ (TransformStruct ps opts).fields) :
    tf.shouldExclude = false := by
  obtain ⟨f, _, _, rfl⟩ := mem_transform_fields h
  rfl

/-- One upstream-loop step appends exactly that field's diff lines. -/
lemma diffSourceStep_lines (m : List (String × ParsedField)) (acc : DiffResult)
    (sf : TransformedField) :
    (diffSourceStep m acc sf).lines = acc.lines ++ diffEntryLines m sf := by
  unfold diffSourceStep diffEntryLines
  cases hex : sf.shouldExclude
  · cases hlk : goLookup m (tfieldKey sf) with
    | some tf =>
      by_cases heq : formatField tf ≠ formatTransformedField sf <;> simp [hlk, heq]
    | none => simp [hlk]
  · simp

/-- The upstream loop's lines are the header plus one block per transformed
field, in transformed-field order. -/
lemma foldl_diffSourceStep_lines (m : List (String × ParsedField))
    (L : List TransformedField) (acc : DiffResult) :
    (L.foldl (diffSourceStep m) acc).lines =
      acc.lines ++ L.flatMap (diffEntryLines m) := by
  induction L generalizing acc with
  | nil => simp
  | cons sf t ih =>
    rw [List.foldl_cons, ih, diffSourceStep_lines, List.flatMap_cons,
      List.append_assoc]

/-- One target-loop step appends exactly that field's removal lines. -/
lemma diffRemovedStep_lines (m : List (String × TransformedField))
    (acc : DiffResult) (f : ParsedField) :
    (diffRemovedStep m acc f).lines = acc.lines ++ diffRemovedLines m f := by
  unfold diffRemovedStep diffRemovedLines
  cases hlk : goLookup m (fieldKey f) with
  | some tf => simp [hlk]
  | none =>
    cases hc : isFieldCommented f <;> simp [hlk, hc]

/-- The target loop's lines are one (possibly empty) block per target field,
in target-field order. -/
lemma foldl_diffRemovedStep_lines (m : List (String × TransformedField))
    (L : List ParsedField) (acc : DiffResult) :
    (L.foldl (diffRemovedStep m) acc).lines =
      acc.lines ++ L.flatMap (diffRemovedLines m) := by
  induction L generalizing acc with
  | nil => simp
  | cons f t ih =>
    rw [List.foldl_cons, ih, diffRemovedStep_lines, List.flatMap_cons,
      List.append_assoc]

/-- A field whose render matches its target counterpart (or which is
excluded) leaves the change flag untouched. -/
lemma diffSourceStep_hasChanges (m : List (String × ParsedField))
    (acc : DiffResult) (sf : TransformedField)
    (h : sf.shouldExclude = true ∨
      ∃ pb, goLookup m (tfieldKey sf) = some pb ∧
        formatField pb = formatTransformedField sf) :
    (diffSourceStep m acc sf).hasChanges = acc.hasChanges := by
  unfold diffSourceStep
  rcases h with hex | ⟨pb, hlk, heq⟩
  · simp [hex]
  · cases hex : sf.shouldExclude
    · simp [hlk, heq]
    · simp

/-- The upstream loop preserves the change flag when every field matches. -/
lemma foldl_diffSourceStep_hasChanges (m : List (String × ParsedField))
    (L : List TransformedField) (acc : DiffResult)
    (h : ∀ sf ∈ L, sf.shouldExclude = true ∨
      ∃ pb, goLookup m (tfieldKey sf) = some pb ∧
        formatField pb = formatTransformedField sf) :
    (L.foldl (diffSourceStep m) acc).hasChanges = acc.hasChanges := by
  induction L generalizing acc with
  | nil => rfl
  | cons sf t ih =>
    rw [List.foldl_cons, ih _ (fun x hx => h x (List.mem_cons_of_mem _ hx)),
      diffSourceStep_hasChanges m acc sf (h sf (List.mem_cons_self _ _))]

/-- A target field still present upstream (or already neutralized) leaves the
change flag untouched. -/
lemma diffRemovedStep_hasChanges (m : List (String × TransformedField))
    (acc : DiffResult) (f : ParsedField)
    (h : (goLookup m (fieldKey f)).isSome = true ∨ isFieldCommented f = true) :
    (diffRemovedStep m acc f).hasChanges = acc.hasChanges := by
  unfold diffRemovedStep
  cases hlk : goLookup m (fieldKey f) with
  | some tf => simp
  | none =>
    rcases h with hs | hc
    · rw [hlk] at hs
      simp at hs
    · simp [hc]

/-- The target loop preserves the change flag when every target field is
matched or neutralized. -/
lemma foldl_diffRemovedStep_hasChanges (m : List (String × TransformedField))
    (L : List ParsedField) (acc : DiffResult)
    (h : ∀ f ∈ L, (goLookup m (fieldKey f)).isSome = true ∨
      isFieldCommented f = true) :
    (L.foldl (diffRemovedStep m) acc).hasChanges = acc.hasChanges := by
  induction L generalizing acc with
  | nil => rfl
  | cons f t ih =>
    rw [List.foldl_cons, ih _ (fun x hx => h x (List.mem_cons_of_mem _ hx)),
      diffRemovedStep_hasChanges m acc f (h f (List.mem_cons_self _ _))]

/-- The names of a built field node. -/
lemma buildField_names (tf : TransformedField) :
    (buildField tf).names = if tf.isEmbedded then [] else [tf.name] := rfl

/-- The comments of a built field node. -/
lemma buildField_comments (tf : TransformedField) :
    (buildField tf).comments = tf.comments := rfl

/-- The tag of a built field node. -/
lemma buildField_tag (tf : TransformedField) :
    (buildField tf).tag = if tf.newTags ≠ "" then some tf.newTags else none := rfl

/-- A built field node parses back into exactly one field. -/
lemma extractField_buildField (tf : TransformedField) :
    extractField (buildField tf) = [pbOf tf] := by
  unfold extractField pbOf
  cases hemb : tf.isEmbedded <;>
    simp [buildField_names, buildField_comments, hemb]

/-- The rendered type of a built field node is the display type of the
transformed field (remapped type when set, else the original). -/
lemma pb_type_display (tf : TransformedField)
    (htype : tf.type = exprToStringO tf.typeExpr) :
    exprToStringO (buildField tf).type =
      (if tf.newType ≠ "" then tf.newType else tf.type) := by
  unfold buildField
  by_cases hm : tf.newType ≠ "" ∧ tf.newType ≠ tf.type
  · rw [if_pos hm, if_pos hm.1]
    rfl
  · rw [if_neg hm, exprToStringO_cloneExprO, ← htype]
    by_cases h0 : tf.newType ≠ ""
    · have : tf.newType = tf.type := by
        by_contra hne
        exact hm ⟨h0, hne⟩
      simp [h0, this]
    · simp [h0]

/-- The key of a parsed-back built field equals the transformed field's key
(when embedded types are not remapped). -/
lemma fieldKey_pbOf (tf : TransformedField)
    (htype : tf.type = exprToStringO tf.typeExpr)
    (hemb : tf.isEmbedded = true → tf.newType = tf.type) :
    fieldKey (pbOf tf) = tfieldKey tf := by
  unfold fieldKey tfieldKey pbOf
  cases h : tf.isEmbedded
  · simp [h]
  · have hnt : tf.newType = tf.type := hemb h
    simp only [h, if_true]
    rw [pb_type_display tf htype, hnt]
    by_cases h0 : tf.type ≠ "" <;> simp [h0]

/-- A parsed-back built field renders exactly as the transformed field that
produced it. -/
lemma formatField_pbOf (tf : TransformedField)
    (htype : tf.type = exprToStringO tf.typeExpr) :
    formatField (pbOf tf) = formatTransformedField tf := by
  unfold formatField formatTransformedField pbOf
  rw [pb_type_display tf htype]
  cases h : tf.isEmbedded <;>
    by_cases ht : tf.newTags ≠ "" <;>
      simp [h, ht, buildField]

/-- With the hard-delete policy the build output is exactly the retained
transformed fields: no target-only field survives. -/
lemma build_fields_no_deprecate (tr : TransformResult) (ex : List ParsedField)
    (mopts : MergeOptions) (h : mopts.markDeprecated = false) :
    (BuildFieldsFromTransform tr ex mopts).fields =
      (tr.fields.filter (fun tf => !tf.shouldExclude)).map buildField := by
  unfold BuildFieldsFromTransform
  have h2 : ex.filterMap (fun ef =>
      if (goLookup (transformedMapOf tr) (buildKeyPF ef)).isSome then none
      else if mopts.markDeprecated then
        some (buildDeprecatedField ef mopts.deprecationMessage mopts.removeTags)
      else none) = [] := by
    rw [List.filterMap_eq_nil_iff]
    intro ef _
    by_cases hl : (goLookup (transformedMapOf tr) (buildKeyPF ef)).isSome <;>
      simp [hl, h]
  simp [h2]

/-- Parsing back the built nodes of a field list yields one field per node. -/
lemma flatMap_extract_build (l : List TransformedField) :
    (l.map buildField).flatMap extractField = l.map pbOf := by
  induction l with
  | nil => rfl
  | cons tf t ih =>
    simp [List.flatMap_cons, extractField_buildField, ih]

/-- The second-run target fields are the parse-backs of the retained
transformed fields, under the hard-delete policy. -/
lemma secondRun_fields (ps ts : ParsedStruct) (opts : TransformOpts)
    (mopts : MergeOptions) (h : mopts.markDeprecated = false) :
    (secondRunTarget ps ts opts mopts).fields =
      (TransformStruct ps opts).fields.map pbOf := by
  unfold secondRunTarget
  rw [build_fields_no_deprecate _ _ _ h]
  have hfil : (TransformStruct ps opts).fields.filter (fun tf => !tf.shouldExclude) =
      (TransformStruct ps opts).fields := by
    rw [List.filter_eq_self]
    intro tf htf
    rw [shouldExclude_of_mem_transform htf]
    rfl
  rw [hfil, flatMap_extract_build]

/-- Parsing the empty annotation string succeeds with no tags. -/
lemma parseTags_empty : parseTags "" = some [] := rfl

/-- A field whose annotation fails to parse is never dual-skip excluded. -/
lemma shouldExcludeField_of_parse_fail (tagStr : String)
    (h : parseTags (trimBackticks tagStr) = none) :
    shouldExcludeField tagStr = false := by
  simp only [shouldExcludeField]
  by_cases h0 : tagStr = ""
  · simp [h0]
  · rw [if_neg h0]
    by_cases h1 : trimBackticks tagStr = ""
    · rw [h1, parseTags_empty] at h
      exact absurd h (by simp)
    · rw [if_neg h1, h]

/-- An annotation that fails to parse is handed back re-backquoted with the
modified flag clear. -/
lemma transformTags_of_parse_fail (tagStr : String) (rs : List String)
    (h : parseTags (trimBackticks tagStr) = none) :
    transformTags tagStr rs = (bqStr ++ trimBackticks tagStr ++ bqStr, false) := by
  simp only [transformTags]
  by_cases h0 : tagStr = ""
  · subst h0
    exact absurd h (by decide)
  · rw [if_neg h0]
    by_cases h1 : trimBackticks tagStr = ""
    · rw [h1, parseTags_empty] at h
      exact absurd h (by simp)
    · rw [if_neg h1, h]

/-- The builder key of a transformed field is the builder key of the field it
came from. -/
lemma buildKeyTF_mkTransformed (opts : TransformOpts) (f : ParsedField) :
    buildKeyTF (mkTransformed opts f) = buildKeyPF f := rfl

/-- The key under which a built node re-enters the next parse equals the
builder key of the transformed field, when embedded types are not remapped. -/
lemma dstFieldKey_buildField (tf : TransformedField)
    (htype : tf.type = exprToStringO tf.typeExpr)
    (hemb : tf.isEmbedded = true → tf.newType = tf.type) :
    dstFieldKey (buildField tf) = buildKeyTF tf := by
  unfold dstFieldKey buildKeyTF
  rw [buildField_names]
  cases h : tf.isEmbedded
  · simp [h]
  · simp only [h, if_true]
    rw [pb_type_display tf htype, hemb h]
    by_cases h0 : tf.type ≠ "" <;> simp [h0]

/-- One stats step never touches the new/removed/excluded counters. -/
lemma syncStructStats_other_counters (opts : TransformOpts) (acc : SummaryStats)
    (p : ParsedStruct × ParsedStruct) :
    (syncStructStats opts acc p).newFields = acc.newFields ∧
    (syncStructStats opts acc p).removedFields = acc.removedFields ∧
    (syncStructStats opts acc p).excludedFields = acc.excludedFields :=
  ⟨rfl, rfl, rfl⟩

/-- Folding the stats step never touches the new/removed/excluded counters. -/
lemma foldl_stats_other_counters (opts : TransformOpts)
    (pairs : List (ParsedStruct × ParsedStruct)) (acc : SummaryStats) :
    (pairs.foldl (syncStructStats opts) acc).newFields = acc.newFields ∧
    (pairs.foldl (syncStructStats opts) acc).removedFields = acc.removedFields ∧
    (pairs.foldl (syncStructStats opts) acc).excludedFields = acc.excludedFields := by
  induction pairs generalizing acc with
  | nil => exact ⟨rfl, rfl, rfl⟩
  | cons p t ih =>
    rw [List.foldl_cons]
    exact (ih (syncStructStats opts acc p))

/-! ## Claim theorems -/

/-- C4: a field whose annotation string fails to parse as key-value pairs is
passed through with its tag byte-for-byte unchanged, is not counted as
modified, and produces no error: the transformer loop body appends it with
`newTags` equal to the original tag string and leaves `modifiedTags` and
`excludedFields` untouched (type remapping still applies; the field cannot be
dual-skip excluded since that check also needs a successful parse). -/
theorem malformed_tags_pass_through (opts : TransformOpts)
    (acc : TransformResult) (f : ParsedField)
    (hparse : parseTags (trimBackticks f.tags) = none)
    (hne : (f.isEmbedded && opts.excludeEmbedded.contains f.type) = false) :
    transformStep opts acc f =
      { acc with fields := acc.fields ++
          [{ toParsedField := f
             newTags := f.tags
             newType := (goLookup opts.typeMappings f.type).getD f.type
             shouldExclude := false }] } := by
  have hsk := shouldExcludeField_of_parse_fail f.tags hparse
  have htt := transformTags_of_parse_fail f.tags opts.removeTags hparse
  simp only [transformStep, mkTransformed, hne, hsk, htt]
  cases hlk : goLookup opts.typeMappings f.type <;> simp [hlk]

/-- Witness for C4 at the concrete unparseable annotation `bad` (backquoted):
the field flows through with its tag intact and nothing counted. -/
theorem malformed_tags_pass_through_witness :
    parseTags (trimBackticks (bqStr ++ "bad" ++ bqStr)) = none ∧
    transformStep xormOpts ⟨[], [], 0⟩
        ⟨"X", "int", some (.ident "int"), bqStr ++ "bad" ++ bqStr, [], false⟩ =
      ⟨[⟨⟨"X", "int", some (.ident "int"), bqStr ++ "bad" ++ bqStr, [], false⟩,
         bqStr ++ "bad" ++ bqStr, "int", false⟩], [], 0⟩ := by
  refine ⟨by decide, ?_⟩
  rw [malformed_tags_pass_through xormOpts ⟨[], [], 0⟩ _ (by decide) (by decide)]
  rfl

/-- C5: type remapping is a single exact-match lookup of the field's declared
type in the mapping table: the appended field's `newType` is the mapped value
when the textual type matches a key exactly and the original type otherwise,
with no cascading lookup applied to the result. -/
theorem type_mapping_single_exact_lookup (opts : TransformOpts)
    (acc : TransformResult) (f : ParsedField)
    (hne : (f.isEmbedded && opts.excludeEmbedded.contains f.type) = false)
    (hsk : shouldExcludeField f.tags = false) :
    (transformStep opts acc f).fields = acc.fields ++ [mkTransformed opts f] ∧
    (mkTransformed opts f).newType =
      (goLookup opts.typeMappings f.type).getD f.type := by
  constructor
  · rw [transformStep_fields]
    have hp : exPred opts f = false := by
      unfold exPred
      rw [hne, hsk]
      rfl
    simp [hp]
  · simp only [mkTransformed]
    cases hlk : goLookup opts.typeMappings f.type <;> simp [hlk]

/-- Witness for C5: under the documented mapping the exact match
`pp.PaymentState` becomes `string`, the pointer type `*pp.PaymentState` is
left unmapped, and the chained table entry is not applied transitively. -/
theorem type_mapping_single_exact_lookup_witness :
    (mkTransformed ppOpts
      ⟨"State", "pp.PaymentState", some (.selector (.ident "pp") "PaymentState"),
        "", [], false⟩).newType = "string" ∧
    (mkTransformed ppOpts
      ⟨"Ptr", "*pp.PaymentState",
        some (.star (.selector (.ident "pp") "PaymentState")), "", [], false⟩).newType =
      "*pp.PaymentState" ∧
    (mkTransformed ppOpts ⟨"X", "A", some (.ident "A"), "", [], false⟩).newType = "B" ∧
    (transformStep ppOpts ⟨[], [], 0⟩
        ⟨"X", "A", some (.ident "A"), "", [], false⟩).fields =
      [mkTransformed ppOpts ⟨"X", "A", some (.ident "A"), "", [], false⟩] := by
  refine ⟨?_, ?_, ?_, ?_⟩
  · exact (type_mapping_single_exact_lookup ppOpts ⟨[], [], 0⟩ _ (by decide)
      (by decide)).2.trans (by decide)
  · exact (type_mapping_single_exact_lookup ppOpts ⟨[], [], 0⟩ _ (by decide)
      (by decide)).2.trans (by decide)
  · exact (type_mapping_single_exact_lookup ppOpts ⟨[], [], 0⟩ _ (by decide)
      (by decide)).2.trans (by decide)
  · exact (type_mapping_single_exact_lookup ppOpts ⟨[], [], 0⟩ _ (by decide)
      (by decide)).1.trans (by simp)

/-- C10: a target-only field carrying any leading line comment whose content
(after the comment marker is stripped) starts with an indirection marker or
contains a dot anywhere — ordinary prose with a period included — is treated
as neutralized: `isFieldCommented` accepts it, and the removal loop emits no
removed line for it and leaves the change flag alone. -/
theorem dot_comment_neutralizes_removed_field
    (sourceMap : List (String × TransformedField)) (acc : DiffResult)
    (f : ParsedField)
    (habsent : goLookup sourceMap (fieldKey f) = none)
    (hc : ∃ c ∈ f.comments,
      strStarts (goTrimSpace c) "//" = true ∧
        (strStarts (goTrimSpace (strDropPre (goTrimSpace c) "//")) "*" = true ∨
          goContains (goTrimSpace (strDropPre (goTrimSpace c) "//")) "." = true)) :
    isFieldCommented f = true ∧ diffRemovedStep sourceMap acc f = acc := by
  have hic : isFieldCommented f = true := by
    unfold isFieldCommented
    rw [List.any_eq_true]
    obtain ⟨c, hmem, hpre, hcond⟩ := hc
    refine ⟨c, hmem, ?_⟩
    simp only [hpre, if_true]
    rcases hcond with h | h <;> simp [h]
  refine ⟨hic, ?_⟩
  unfold diffRemovedStep
  rw [habsent, hic]
  simp

/-- Witness for C10: the prose comment ends in a period, so the field is
skipped by the removal loop. -/
theorem dot_comment_neutralizes_removed_field_witness :
    isFieldCommented
      ⟨"Old", "string", some (.ident "string"), "", ["// no longer used."], false⟩ =
      true ∧
    diffRemovedStep [] emptyDiff
      ⟨"Old", "string", some (.ident "string"), "", ["// no longer used."], false⟩ =
      emptyDiff :=
  dot_comment_neutralizes_removed_field [] emptyDiff
    ⟨"Old", "string", some (.ident "string"), "", ["// no longer used."], false⟩
    (by decide) (by decide)

/-- C6: the diff's line order is fully determined by the ordered field lists
(the maps are used for lookups only): always a header line, then one block
per transformed upstream field in upstream order, then one (possibly empty)
removal block per target field in target order, then a footer; on upstream
`A`, `B`, `C` against a target containing only `B` with a changed type this
yields exactly header, A-added, B-removed, B-added, C-added, footer. -/
theorem diff_lines_follow_field_order :
    (∀ (ts : ParsedStruct) (tr : TransformResult),
      (ComputeDiff ts tr).lines =
        ⟨.unchanged, "type " ++ ts.name ++ " struct \x7b"⟩ ::
          (tr.fields.flatMap (diffEntryLines (targetMapOf ts)) ++
            ts.fields.flatMap (diffRemovedLines (sourceMapOf tr)) ++
            [⟨.unchanged, "\x7d"⟩])) ∧
    (ComputeDiff exTarget (TransformStruct exSource emptyOpts)).lines =
      [⟨.unchanged, "type S struct \x7b"⟩,
       ⟨.added, "\tA int"⟩,
       ⟨.removed, "\tB string"⟩,
       ⟨.added, "\tB bool"⟩,
       ⟨.added, "\tC int"⟩,
       ⟨.unchanged, "\x7d"⟩] := by
  constructor
  · intro ts tr
    have hrfl : (ComputeDiff ts tr).lines =
        (ts.fields.foldl (diffRemovedStep (sourceMapOf tr))
          (tr.fields.foldl (diffSourceStep (targetMapOf ts))
            (diffInit ts.name))).lines ++ [⟨.unchanged, "\x7d"⟩] := rfl
    rw [hrfl, foldl_diffRemovedStep_lines, foldl_diffSourceStep_lines]
    simp [diffInit]
  · rfl

/-- C8 (evidence for the summary-aggregation bug): the run-wide summary never
aggregates the new/removed/excluded field counters — they stay zero for every
configuration and every list of processed struct pairs — even though the
per-declaration diff does observe such fields (here the upstream adds `A`,
the diff contains exactly one added line, and `newFields` still ends at 0). -/
theorem summary_counters_not_aggregated :
    (∀ (opts : TransformOpts) (pairs : List (ParsedStruct × ParsedStruct)),
      (runStats opts pairs).newFields = 0 ∧
      (runStats opts pairs).removedFields = 0 ∧
      (runStats opts pairs).excludedFields = 0) ∧
    ((ComputeDiff statsTarget (TransformStruct statsSource emptyOpts)).lines.filter
        (fun l => l.type == DiffType.added)).length = 1 ∧
    (runStats emptyOpts [(statsSource, statsTarget)]).newFields = 0 := by
  refine ⟨fun opts pairs => foldl_stats_other_counters opts pairs _, ?_, ?_⟩
  · rfl
  · rfl

/-- C9: type rendering is the textual projection of the expression
(identifier, pointer marker, qualified-name dot, slice and fixed-array
brackets, map key/value, empty-body inline interface/struct short forms),
with every unsupported node rendered as its dynamic type name; cloning keeps
unsupported nodes as-is (structured form retained) and preserves the rendered
text, and the builder reconstructs an unmapped field's type from the cloned
structure rather than from the rendered string. -/
theorem type_rendering_and_clone_faithful :
    (∀ n, exprToString (.ident n) = n) ∧
    (∀ e, exprToString (.star e) = "*" ++ exprToString e) ∧
    (∀ e s, exprToString (.selector e s) = exprToString e ++ "." ++ s) ∧
    (∀ e, exprToString (.array none e) = "[]" ++ exprToString e) ∧
    (∀ l e, exprToString (.array (some l) e) = "[...]" ++ exprToString e) ∧
    (∀ k v, exprToString (.mapT k v) =
      "map[" ++ exprToString k ++ "]" ++ exprToString v) ∧
    (∀ ms, exprToString (.interfaceT ms) = "interface\x7b\x7d") ∧
    (∀ fs, exprToString (.structT fs) = "struct\x7b\x7d") ∧
    (∀ g p, exprToString (.other g p) = g) ∧
    (∀ g p, cloneExpr (.other g p) = .other g p) ∧
    (∀ e, exprToString (cloneExpr e) = exprToString e) ∧
    (∀ tf : TransformedField, tf.newType = tf.type →
      (buildField tf).type = cloneExprO tf.typeExpr) := by
  refine ⟨fun n => rfl, fun e => rfl, fun e s => rfl, fun e => rfl,
    fun l e => rfl, fun k v => rfl, fun ms => rfl, fun fs => rfl,
    fun g p => rfl, fun g p => rfl, exprToString_cloneExpr, fun tf h => ?_⟩
  show (if tf.newType ≠ "" ∧ tf.newType ≠ tf.type then some (.ident tf.newType)
    else cloneExprO tf.typeExpr) = cloneExprO tf.typeExpr
  rw [if_neg (fun hcon => hcon.2 h)]

/-- Witness for C9: the unmapped field's built type is the clone of its
structured type expression. -/
theorem type_rendering_and_clone_faithful_witness :
    (buildField ⟨⟨"F", "*pp.T", some (.star (.selector (.ident "pp") "T")),
        "", [], false⟩, "", "*pp.T", false⟩).type =
      cloneExprO (some (.star (.selector (.ident "pp") "T"))) :=
  type_rendering_and_clone_faithful.2.2.2.2.2.2.2.2.2.2.2
    ⟨⟨"F", "*pp.T", some (.star (.selector (.ident "pp") "T")), "", [], false⟩,
      "", "*pp.T", false⟩ rfl

/-- C1 counterexample: with the shipped defaults (`mark_deprecated` true,
message `removed from server`), running the pipeline a second time against
the unchanged upstream still reports changes: the deprecated stub emitted for
the target-only field `Foo` on the first run is diffed as a pending removal
again (its synthesized comment contains neither an indirection marker nor a
dot, so the neutralized-field check rejects it), contradicting the claimed
idempotence and in particular the claim that stubs produce no diff lines. -/
theorem secondRun_hasChanges_with_deprecated_stub :
    (ComputeDiff (secondRunTarget emptySource fooTarget xormOpts defaultMergeOpts)
        (TransformStruct emptySource xormOpts)).hasChanges = true ∧
    ⟨DiffType.removed, "\tFoo string"⟩ ∈
      (ComputeDiff (secondRunTarget emptySource fooTarget xormOpts defaultMergeOpts)
        (TransformStruct emptySource xormOpts)).lines :=
  ⟨rfl, by decide⟩

/-- C1 amended: the second pipeline run reports no changes provided removed
fields are hard-deleted rather than converted to stubs (`mark_deprecated`
false), each upstream field's textual type agrees with its structured type
expression, no embedded field's type is remapped, and the transformed fields
have pairwise-distinct identity keys. -/
theorem secondRun_noChanges_without_deprecation
    (ps ts : ParsedStruct) (opts : TransformOpts) (mopts : MergeOptions)
    (hmd : mopts.markDeprecated = false)
    (htype : ∀ f ∈ ps.fields, f.type = exprToStringO f.typeExpr)
    (hemb : ∀ tf ∈ (TransformStruct ps opts).fields,
      tf.isEmbedded = true → tf.newType = tf.type)
    (hkeys : ((TransformStruct ps opts).fields.map tfieldKey).Nodup) :
    (ComputeDiff (secondRunTarget ps ts opts mopts)
      (TransformStruct ps opts)).hasChanges = false := by
  have htype' : ∀ tf ∈ (TransformStruct ps opts).fields,
      tf.type = exprToStringO tf.typeExpr := by
    intro tf htf
    obtain ⟨g, hg, _, rfl⟩ := mem_transform_fields htf
    exact htype g hg
  have hfields := secondRun_fields ps ts opts mopts hmd
  have hmap : targetMapOf (secondRunTarget ps ts opts mopts) =
      (TransformStruct ps opts).fields.map (fun tf => (tfieldKey tf, pbOf tf)) := by
    unfold targetMapOf
    rw [hfields, List.map_map]
    refine List.map_congr_left ?_
    intro tf htf
    simp only [Function.comp]
    rw [fieldKey_pbOf tf (htype' tf htf) (hemb tf htf)]
  have h1 : ∀ sf ∈ (TransformStruct ps opts).fields,
      sf.shouldExclude = true ∨
        ∃ pb, goLookup (targetMapOf (secondRunTarget ps ts opts mopts))
            (tfieldKey sf) = some pb ∧
          formatField pb = formatTransformedField sf := by
    intro sf hsf
    right
    refine ⟨pbOf sf, ?_, formatField_pbOf sf (htype' sf hsf)⟩
    rw [hmap]
    exact goLookup_map_self tfieldKey pbOf _ sf hsf hkeys
  have h2 : ∀ f ∈ (secondRunTarget ps ts opts mopts).fields,
      (goLookup (sourceMapOf (TransformStruct ps opts))
        (fieldKey f)).isSome = true ∨ isFieldCommented f = true := by
    intro f hf
    left
    rw [hfields] at hf
    obtain ⟨tf, htf, rfl⟩ := List.mem_map.mp hf
    rw [goLookup_isSome, fieldKey_pbOf tf (htype' tf htf) (hemb tf htf)]
    unfold sourceMapOf
    rw [List.map_map]
    exact List.mem_map_of_mem _ htf
  have hrfl : (ComputeDiff (secondRunTarget ps ts opts mopts)
        (TransformStruct ps opts)).hasChanges =
      ((secondRunTarget ps ts opts mopts).fields.foldl
        (diffRemovedStep (sourceMapOf (TransformStruct ps opts)))
        ((TransformStruct ps opts).fields.foldl
          (diffSourceStep (targetMapOf (secondRunTarget ps ts opts mopts)))
          (diffInit (secondRunTarget ps ts opts mopts).name))).hasChanges := rfl
  rw [hrfl, foldl_diffRemovedStep_hasChanges _ _ _ h2,
    foldl_diffSourceStep_hasChanges _ _ _ h1]
  rfl

/-- Witness for C1 amended: a concrete second run with the hard-delete
policy reports no changes. -/
theorem secondRun_noChanges_without_deprecation_witness :
    hardDeleteOpts.markDeprecated = false ∧
    (ComputeDiff (secondRunTarget exSource fooTarget emptyOpts hardDeleteOpts)
      (TransformStruct exSource emptyOpts)).hasChanges = false :=
  ⟨rfl, secondRun_noChanges_without_deprecation exSource fooTarget emptyOpts
    hardDeleteOpts rfl (by decide) (by decide) (by decide)⟩

/-- C2 counterexample: a field the transformer excludes (dual skip directive)
does reappear in the build output when the existing target still contains a
field with the same identity key and `mark_deprecated` is true: the stub for
`Secret` is emitted, so exclusion is not terminal for the deprecated set. -/
theorem excluded_field_reemitted_as_deprecated_stub :
    "Secret" ∈ (TransformStruct secretSource xormOpts).excludedFields ∧
    (BuildFieldsFromTransform (TransformStruct secretSource xormOpts)
        secretExisting defaultMergeOpts).fields.map dstFieldKey = ["Secret"] := by
  refine ⟨by decide, ?_⟩
  rfl

/-- C2 amended: exclusion is terminal for the retained transformed fields
always, and for the whole build output under the hard-delete policy: with
`mark_deprecated` false no output field carries the excluded field's identity
key (given pairwise-distinct field keys, textual types agreeing with the
structured expressions, and no embedded remapping); with `mark_deprecated`
true a same-key target field is re-emitted as a deprecated stub, as the
counterexample shows. -/
theorem exclusion_terminal_when_hard_delete
    (ps : ParsedStruct) (opts : TransformOpts) (existing : List ParsedField)
    (mopts : MergeOptions) (hmd : mopts.markDeprecated = false)
    (hkeys : (ps.fields.map buildKeyPF).Nodup)
    (htype : ∀ f ∈ ps.fields, f.type = exprToStringO f.typeExpr)
    (hemb : ∀ tf ∈ (TransformStruct ps opts).fields,
      tf.isEmbedded = true → tf.newType = tf.type)
    (f : ParsedField) (hf : f ∈ ps.fields) (hex : exPred opts f = true) :
    ∀ b ∈ (BuildFieldsFromTransform (TransformStruct ps opts) existing
      mopts).fields, dstFieldKey b ≠ buildKeyPF f := by
  intro b hb
  rw [build_fields_no_deprecate _ _ _ hmd] at hb
  obtain ⟨tf, htf, rfl⟩ := List.mem_map.mp hb
  have htf1 : tf ∈ (TransformStruct ps opts).fields := (List.mem_filter.mp htf).1
  obtain ⟨g, hg, hgex, htfg⟩ := mem_transform_fields htf1
  have hty : tf.type = exprToStringO tf.typeExpr := by
    rw [htfg]
    exact htype g hg
  have hkey : dstFieldKey (buildField tf) = buildKeyPF g := by
    rw [dstFieldKey_buildField tf hty (hemb tf htf1), htfg, buildKeyTF_mkTransformed]
  rw [hkey]
  intro hcontra
  have hgf : g = f := List.inj_on_of_nodup_map hkeys hg hf hcontra
  rw [hgf, hex] at hgex
  exact absurd hgex (by simp)

/-- Witness for C2 amended: with the hard-delete policy the retained field
`Keep` does not carry the excluded key `Secret`. -/
theorem exclusion_terminal_when_hard_delete_witness :
    exPred xormOpts secretField = true ∧
    dstFieldKey (buildField (mkTransformed xormOpts keepField)) ≠
      buildKeyPF secretField :=
  ⟨by decide,
    exclusion_terminal_when_hard_delete keepSecretSource xormOpts secretExisting
      hardDeleteOpts rfl (by decide) (by decide) (by decide) secretField
      (by decide) (by decide)
      (buildField (mkTransformed xormOpts keepField)) (by decide)⟩

/-- C3 counterexample: the deprecated stub does not preserve the field's
prior comment lines — they are discarded and only the synthesized deprecation
line remains. -/
theorem deprecated_stub_discards_prior_comments :
    (buildDeprecatedField
        ⟨"Foo", "string", some (.ident "string"), "", ["// keep me"], false⟩
        "" []).comments = ["// Deprecated: removed from server"] ∧
    "// keep me" ∉ (buildDeprecatedField
        ⟨"Foo", "string", some (.ident "string"), "", ["// keep me"], false⟩
        "" []).comments := by
  refine ⟨rfl, by decide⟩

/-- C3 amended: when `mark_deprecated` is true each target-only field is
emitted keeping its original name and type, with the configured
remove-annotation keys stripped from its tag, and with the synthesized
comment (`Deprecated:` plus the message, defaulting to `removed from server`
when the message is empty) forced onto its own line as the field's only
comment — the field's prior comment lines are discarded, not preserved; when
`mark_deprecated` is false the field is omitted entirely. -/
theorem deprecated_stub_shape (pf : ParsedField) (message : String)
    (keys : List String) :
    (buildDeprecatedField pf message keys).names =
      (if pf.isEmbedded then [] else [pf.name]) ∧
    (buildDeprecatedField pf message keys).type =
      (match pf.typeExpr with
       | some e => some (cloneExpr e)
       | none => some (.ident pf.type)) ∧
    (buildDeprecatedField pf message keys).tag =
      (if pf.tags ≠ "" then
        (if (transformTagsHelper pf.tags keys).1 ≠ "" then
          some (transformTagsHelper pf.tags keys).1
         else none)
       else none) ∧
    (buildDeprecatedField pf message keys).comments =
      ["// Deprecated: " ++
        (if message = "" then "removed from server" else message)] ∧
    (buildDeprecatedField pf message keys).beforeNewLine = true ∧
    (∀ (tr : TransformResult) (ex : List ParsedField) (mopts : MergeOptions),
      mopts.markDeprecated = false →
      (BuildFieldsFromTransform tr ex mopts).fields =
        (tr.fields.filter (fun tf => !tf.shouldExclude)).map buildField) :=
  ⟨rfl, rfl, rfl, rfl, rfl,
    fun tr ex mopts h => build_fields_no_deprecate tr ex mopts h⟩

/-- Witness for C3 amended: the concrete stub for `Foo` (empty message, the
`xorm` key stripped from its tag), and a concrete hard-delete build emitting
no target-only fields. -/
theorem deprecated_stub_shape_witness :
    (buildDeprecatedField
        ⟨"Foo", "string", some (.ident "string"),
          bqStr ++ "xorm:\"foo\" json:\"foo\"" ++ bqStr, ["// old"], false⟩
        "" ["xorm"]).comments = ["// Deprecated: removed from server"] ∧
    (buildDeprecatedField
        ⟨"Foo", "string", some (.ident "string"),
          bqStr ++ "xorm:\"foo\" json:\"foo\"" ++ bqStr, ["// old"], false⟩
        "" ["xorm"]).tag = some (bqStr ++ "json:\"foo\"" ++ bqStr) ∧
    (BuildFieldsFromTransform ⟨[], [], 0⟩ secretExisting hardDeleteOpts).fields =
      [] := by
  have h := deprecated_stub_shape
    ⟨"Foo", "string", some (.ident "string"),
      bqStr ++ "xorm:\"foo\" json:\"foo\"" ++ bqStr, ["// old"], false⟩
    "" ["xorm"]
  refine ⟨h.2.2.2.1.trans (by decide), h.2.2.1.trans (by decide), ?_⟩
  rw [h.2.2.2.2.2 ⟨[], [], 0⟩ secretExisting hardDeleteOpts rfl]
  rfl

end Structsync
